import Mathlib

/-!
Verification development for the recurring-obligation reminder scheduler of
the Voice-Tasks repository (hooks.ts: `usePayments` / `duePayments` /
`checkAndSendEmails`, services/emailService.ts: `sendPaymentReminderEmail`,
types.ts: `RecurringPayment`, `EmailLog`).

The TypeScript is shallowly embedded: machine dates (`new Date()`) are
modelled as calendar dates (year, month 1..12, day) with the Gregorian
`daysInMonth`; JS `setDate(d+1)` on the last day of a month rolls into the
next month, which `nextDay` reproduces.  Local time inside one calendar day
is a millisecond count `msOfDay` (DST shifts are ignored: local time is
modelled as uniform).  The EmailJS notifier is an oracle
`send : RecurringPayment → SendResult` with the three outcomes of
`sendPaymentReminderEmail`.
-/

set_option autoImplicit false

namespace VoiceTasks

/-- A calendar date: `month` is 1..12 (the TS source uses 0-based
`getMonth()`, but only ever compares months for equality and computes the
day count of a month, so the offset is immaterial). -/
structure Date where
  year : Nat
  month : Nat
  day : Nat
deriving DecidableEq, Repr

/-- Gregorian leap-year rule, as implemented by the JS `Date` engine that
`new Date(year, month + 1, 0).getDate()` consults. -/
def isLeapYear (y : Nat) : Bool :=
  y % 4 == 0 && (y % 100 != 0 || y % 400 == 0)

/-- Number of days in month `m` (1..12) of year `y`; the embedding of the
source's `new Date(tomorrowYear, tomorrowMonth + 1, 0).getDate()`. -/
def daysInMonth (y : Nat) (m : Nat) : Nat :=
  if m = 2 then (if isLeapYear y then 29 else 28)
  else if m = 4 ∨ m = 6 ∨ m = 9 ∨ m = 11 then 30
  else 31

/-- The calendar-correct successor day: the embedding of
`tomorrow.setDate(today.getDate() + 1)`, which rolls into the next month
(and year) when `today` is the last day of its month. -/
def nextDay (d : Date) : Date :=
  if d.day < daysInMonth d.year d.month then
    { year := d.year, month := d.month, day := d.day + 1 }
  else if d.month < 12 then
    { year := d.year, month := d.month + 1, day := 1 }
  else
    { year := d.year + 1, month := 1, day := 1 }

/-- Structure `RecurringPayment` from types.ts.  `amount` is only ever copied into
log entries and notifications, never computed with, so `Nat` suffices.
`lastPaidDate` keeps the calendar date of the ISO timestamp. -/
structure RecurringPayment where
  id : String
  serviceName : String
  amount : Nat
  dueDay : Nat
  lastPaidDate : Option Date
deriving DecidableEq, Repr

/-- The status field of `EmailLog` in types.ts: 'success' | 'failed'. -/
inductive LogStatus where
  | success
  | failed
deriving DecidableEq, Repr

/-- Structure `EmailLog` from types.ts.  `sentAt` keeps the calendar date of the ISO
timestamp (the source compares it via `toDateString()`, day granularity);
`id` is `Math.random()` in the source and plays no role in any observable
behaviour, so it is modelled as the fixed string "". -/
structure EmailLog where
  id : String
  paymentId : Option String
  serviceName : String
  amount : Nat
  sentAt : Date
  status : LogStatus
deriving DecidableEq, Repr

/-- Return type of `sendPaymentReminderEmail` in services/emailService.ts:
'success' | 'error' | 'missing_config'. -/
inductive SendResult where
  | success
  | error
  | missing_config
deriving DecidableEq, Repr

/-- The `emailStatus` strings of `usePayments`:
'idle' | 'sending' | 'sent' | 'already_sent' | 'error' | 'missing_config'. -/
inductive EmailStatus where
  | idle
  | sending
  | sent
  | already_sent
  | error
  | missing_config
deriving DecidableEq, Repr

/-! ## Due-Item Calculator (hooks.ts lines 185-220, duplicated verbatim at
lines 229-252 inside `checkAndSendEmails`; one embedding serves both). -/

/-- Embeds `isPaidThisMonth`: `lastPaidDate` present and its month and year equal
the current month and year. -/
def isPaidThisMonth (p : RecurringPayment) (today : Date) : Bool :=
  match p.lastPaidDate with
  | some d => d.month == today.month && d.year == today.year
  | none => false

/-- Embeds `isToday`: `p.dueDay === currentDay`. -/
def dueTodayB (today : Date) (p : RecurringPayment) : Bool :=
  p.dueDay == today.day

/-- Embeds `isTomorrow`: `p.dueDay === tomorrowDay`, or the end-of-month edge case
`tomorrowDay === daysInTomorrowMonth && p.dueDay > daysInTomorrowMonth`. -/
def dueTomorrowB (today : Date) (p : RecurringPayment) : Bool :=
  let tomorrow := nextDay today
  let dT := daysInMonth tomorrow.year tomorrow.month
  (p.dueDay == tomorrow.day) || (tomorrow.day == dT && decide (dT < p.dueDay))

/-- Embeds `isOverdue`: `p.dueDay < currentDay`, a plain numeric comparison. -/
def overdueB (today : Date) (p : RecurringPayment) : Bool :=
  decide (p.dueDay < today.day)

/-- The filter predicate of `duePayments`: excluded when paid this month,
otherwise included iff due today, due tomorrow, or overdue. -/
def isActionable (today : Date) (p : RecurringPayment) : Bool :=
  !(isPaidThisMonth p today) &&
    (dueTodayB today p || dueTomorrowB today p || overdueB today p)

/-- Embeds `duePayments` (and the identical `actionablePayments` filter inside
`checkAndSendEmails`). -/
def duePayments (payments : List RecurringPayment) (today : Date) :
    List RecurringPayment :=
  payments.filter (isActionable today)

/-! ## Dispatch Engine (`checkAndSendEmails`, hooks.ts lines 225-322).

One invocation of `checkAndSendEmails` is embedded as a pure function of a
`RunInput`: the React state and localStorage values it reads, plus the
notifier as an oracle.  Its observable effects (final `emailStatus`, the
email-log list, the two localStorage bookkeeping keys, which payments were
selected for sending and attempted, and how many 2.5-second throttle delays
were awaited) are collected in a `RunOutput`. -/

/-- The inputs one run of `checkAndSendEmails` reads.
`lastSentToStored` is `localStorage.getItem('lastEmailSentTo')` (`none` for
a null read), `lastSentDate` is `localStorage.getItem('lastEmailSentDate')`
(read by the scheduler and overwritten by a fully successful run), and
`send` is the `sendPaymentReminderEmail` oracle for the run's recipient. -/
structure RunInput where
  payments : List RecurringPayment
  now : Date
  emailLogs : List EmailLog
  recipientEmail : String
  lastSentToStored : Option String
  lastSentDate : Option Date
  emailStatus : EmailStatus
  send : RecurringPayment → SendResult

/-- The observable outcome of one run. `toSend` records the
`paymentsToSend` selection (empty in the early-return branches, where it is
indeed `[]`), `attempted` the ids passed to the notifier in order, and
`delays` the number of 2.5-second inter-send waits performed. -/
structure RunOutput where
  status : EmailStatus
  emailLogsOut : List EmailLog
  lastSentDateOut : Option Date
  lastSentToOut : Option String
  toSend : List RecurringPayment
  attempted : List String
  delays : Nat
deriving Repr

/-- Embeds `actionablePayments`, recomputed fresh at the start of the run
(hooks.ts lines 241-252, the same filter as `duePayments`). -/
def actionableOf (inp : RunInput) : List RecurringPayment :=
  duePayments inp.payments inp.now

/-- Embeds `emailChanged = lastSentToStored !== recipientEmail` (a null stored
value is unequal to every recipient string). -/
def emailChangedOf (inp : RunInput) : Bool :=
  decide (inp.lastSentToStored ≠ some inp.recipientEmail)

/-- Whether one log entry feeds the dedup set: sent on today's calendar
date, status success, and `log.paymentId` truthy — in JS an optional string
is truthy iff it is present and non-empty, so the embedding checks
`some pid` with `pid ≠ ""`. -/
def dedupLog (today : Date) (log : EmailLog) : Bool :=
  decide (log.sentAt = today) && decide (log.status = LogStatus.success) &&
    (match log.paymentId with
     | some pid => decide (pid ≠ "")
     | none => false)

/-- Embeds `sentPaymentIds`: built from today's successful log entries only when
the recipient is unchanged; a recipient change leaves it empty. -/
def sentPaymentIds (emailChanged : Bool) (today : Date)
    (logs : List EmailLog) : List String :=
  if emailChanged then []
  else logs.filterMap (fun log =>
    if dedupLog today log then log.paymentId else none)

/-- The run's dedup set. -/
def sentIdsOf (inp : RunInput) : List String :=
  sentPaymentIds (emailChangedOf inp) inp.now inp.emailLogs

/-- Embeds `paymentsToSend = actionablePayments.filter(p => !sentPaymentIds.has(p.id))`. -/
def toSendOf (inp : RunInput) : List RecurringPayment :=
  (actionableOf inp).filter (fun p => !decide (p.id ∈ sentIdsOf inp))

/-- The `EmailLog` entry appended after a non-aborting send attempt
(hooks.ts lines 296-303): status 'success' exactly when the notifier
returned 'success', otherwise 'failed'; `sentAt` is the run's date; the
random `id` is modelled as "". -/
def mkLog (now : Date) (r : SendResult) (p : RecurringPayment) : EmailLog :=
  { id := ""
    paymentId := some p.id
    serviceName := p.serviceName
    amount := p.amount
    sentAt := now
    status := if r = SendResult.success then LogStatus.success
              else LogStatus.failed }

/-- Mutable state threaded through the send loop: `newLogs` accumulates the
created entries newest-first (each `setEmailLogs(prev => [log, ...prev])`
prepends), together with the loop's `sentCount`, `hasErrors`,
`missingConfig` flags, the ids handed to the notifier, and the number of
2.5-second delays awaited. -/
structure LoopState where
  newLogs : List EmailLog
  sentCount : Nat
  hasErrors : Bool
  missingConfig : Bool
  attempted : List String
  delays : Nat
deriving Repr

/-- The loop's initial state. -/
def initLoopState : LoopState :=
  { newLogs := [], sentCount := 0, hasErrors := false,
    missingConfig := false, attempted := [], delays := 0 }

/-- The `for (const payment of paymentsToSend)` loop (hooks.ts lines
290-308).  `total` is `paymentsToSend.length`, the constant the source
consults for the throttle condition `paymentsToSend.length > 1`.  A
'missing_config' result breaks out at once: no log entry, no delay, state
frozen apart from the flag. -/
def runLoop (send : RecurringPayment → SendResult) (now : Date)
    (total : Nat) : List RecurringPayment → LoopState → LoopState
  | [], st => st
  | p :: rest, st =>
    let r := send p
    if r = SendResult.missing_config then
      { st with missingConfig := true, attempted := st.attempted ++ [p.id] }
    else
      runLoop send now total rest
        { st with
          newLogs := mkLog now r p :: st.newLogs
          sentCount := st.sentCount + (if r = SendResult.success then 1 else 0)
          hasErrors := st.hasErrors || decide (r = SendResult.error)
          attempted := st.attempted ++ [p.id]
          delays := st.delays + (if 1 < total then 1 else 0) }

/-- Final status resolution after the loop (hooks.ts lines 312-321):
'missing_config' on abort; 'sent' — and only then the two bookkeeping
writes — when `sentCount > 0 && !hasErrors`; 'error' when `hasErrors`.
The trailing case (no abort, no success, no error) is unreachable for a
non-empty `toSend` and leaves the status at 'sending', as the source does. -/
def finishRun (inp : RunInput) (st : LoopState) : RunOutput :=
  if st.missingConfig then
    { status := EmailStatus.missing_config
      emailLogsOut := st.newLogs ++ inp.emailLogs
      lastSentDateOut := inp.lastSentDate
      lastSentToOut := inp.lastSentToStored
      toSend := toSendOf inp
      attempted := st.attempted
      delays := st.delays }
  else if 0 < st.sentCount ∧ st.hasErrors = false then
    { status := EmailStatus.sent
      emailLogsOut := st.newLogs ++ inp.emailLogs
      lastSentDateOut := some inp.now
      lastSentToOut := some inp.recipientEmail
      toSend := toSendOf inp
      attempted := st.attempted
      delays := st.delays }
  else if st.hasErrors then
    { status := EmailStatus.error
      emailLogsOut := st.newLogs ++ inp.emailLogs
      lastSentDateOut := inp.lastSentDate
      lastSentToOut := inp.lastSentToStored
      toSend := toSendOf inp
      attempted := st.attempted
      delays := st.delays }
  else
    { status := EmailStatus.sending
      emailLogsOut := st.newLogs ++ inp.emailLogs
      lastSentDateOut := inp.lastSentDate
      lastSentToOut := inp.lastSentToStored
      toSend := toSendOf inp
      attempted := st.attempted
      delays := st.delays }

/-- One full run of `checkAndSendEmails` (hooks.ts lines 225-322).
Early return 1 (no actionable payments): an 'error' / 'missing_config'
status resets to 'idle', anything else is kept.  Early return 2 (every
actionable payment already sent today): status becomes 'already_sent'
unless it is already 'sent' or 'already_sent'. Otherwise the send loop
runs and `finishRun` resolves the outcome. -/
def checkAndSendEmails (inp : RunInput) : RunOutput :=
  if actionableOf inp = [] then
    { status :=
        if inp.emailStatus = EmailStatus.error ∨
           inp.emailStatus = EmailStatus.missing_config
        then EmailStatus.idle else inp.emailStatus
      emailLogsOut := inp.emailLogs
      lastSentDateOut := inp.lastSentDate
      lastSentToOut := inp.lastSentToStored
      toSend := toSendOf inp
      attempted := []
      delays := 0 }
  else if toSendOf inp = [] then
    { status :=
        if inp.emailStatus ≠ EmailStatus.sent ∧
           inp.emailStatus ≠ EmailStatus.already_sent
        then EmailStatus.already_sent else inp.emailStatus
      emailLogsOut := inp.emailLogs
      lastSentDateOut := inp.lastSentDate
      lastSentToOut := inp.lastSentToStored
      toSend := toSendOf inp
      attempted := []
      delays := 0 }
  else
    finishRun inp
      (runLoop inp.send inp.now (toSendOf inp).length (toSendOf inp)
        initLoopState)

/-! ## Dispatch Scheduler (hooks.ts lines 324-363). -/

/-- What the scheduling effect decides to do: invoke the check right away,
or arm a single-shot `setTimeout(checkAndSendEmails, delayMs)` that invokes
the check when it fires. -/
inductive SchedAction where
  | runNow
  | armTimer (delayMs : Nat)
deriving DecidableEq, Repr

/-- Milliseconds per hour. -/
def msPerHour : Nat := 3600000

/-- Embeds `targetTime = today at 06:00:00.000`, as a millisecond-of-day count. -/
def targetMs : Nat := 6 * msPerHour

/-- The scheduler decision (hooks.ts lines 334-359), for the current date
`today` and the current time of day `msOfDay` (< 24h).  If
`lastSentDate === todayStr`, sleep until tomorrow 06:00
(`tomorrowSixAm - now` = 30h minus the time of day); else run at once when
`now >= targetTime`, and otherwise sleep `targetTime - now`. -/
def scheduleNext (lastSentDate : Option Date) (today : Date)
    (msOfDay : Nat) : SchedAction :=
  if lastSentDate = some today then
    SchedAction.armTimer (24 * msPerHour + targetMs - msOfDay)
  else if targetMs ≤ msOfDay then
    SchedAction.runNow
  else
    SchedAction.armTimer (targetMs - msOfDay)

/-! ## Helper functions and lemmas about the send loop. -/

/-- Number of successful sends among `l` under the oracle `send`. -/
def countSucc (send : RecurringPayment → SendResult)
    (l : List RecurringPayment) : Nat :=
  l.countP (fun p => decide (send p = SendResult.success))

/-- Whether some send among `l` fails under the oracle `send`. -/
def anyError (send : RecurringPayment → SendResult)
    (l : List RecurringPayment) : Bool :=
  l.any (fun p => decide (send p = SendResult.error))

/-- The log entries the loop creates for the attempts `l`, in attempt
order. -/
def logsOfRun (send : RecurringPayment → SendResult) (now : Date)
    (l : List RecurringPayment) : List EmailLog :=
  l.map (fun p => mkLog now (send p) p)

/-- Closed form of the send loop when no attempt reports missing_config:
one log entry per item, success count and error flag tallied, one throttle
delay per item exactly when `total > 1`. -/
theorem runLoop_clean (send : RecurringPayment → SendResult) (now : Date)
    (total : Nat) (l : List RecurringPayment) :
    ∀ st : LoopState, (∀ p ∈ l, send p ≠ SendResult.missing_config) →
      runLoop send now total l st =
        { newLogs := (logsOfRun send now l).reverse ++ st.newLogs
          sentCount := st.sentCount + countSucc send l
          hasErrors := st.hasErrors || anyError send l
          missingConfig := st.missingConfig
          attempted := st.attempted ++ l.map (fun p => p.id)
          delays := st.delays + (if 1 < total then l.length else 0) } := by
  induction l with
  | nil =>
    intro st h
    simp [runLoop, logsOfRun, countSucc, anyError]
  | cons p rest ih =>
    intro st h
    have hp : send p ≠ SendResult.missing_config := h p (by simp)
    have hrest : ∀ q ∈ rest, send q ≠ SendResult.missing_config :=
      fun q hq => h q (by simp [hq])
    simp only [runLoop, if_neg hp]
    rw [ih _ hrest]
    simp only [LoopState.mk.injEq, logsOfRun, List.map_cons, List.reverse_cons,
      List.append_assoc, List.singleton_append, List.cons_append,
      countSucc, List.countP_cons, decide_eq_true_eq,
      anyError, List.any_cons, List.length_cons]
    and_intros
    · rfl
    · omega
    · cases st.hasErrors <;> simp [Bool.or_assoc]
    · trivial
    · rfl
    · by_cases ht : 1 < total
      · simp only [if_pos ht]
        omega
      · simp only [if_neg ht]

/-- The send loop distributes over an append whose first part is free of
missing_config (a missing_config in the first part would abort and skip
the second part entirely). -/
theorem runLoop_append (send : RecurringPayment → SendResult) (now : Date)
    (total : Nat) (b : List RecurringPayment) :
    ∀ (a : List RecurringPayment) (st : LoopState),
      (∀ q ∈ a, send q ≠ SendResult.missing_config) →
      runLoop send now total (a ++ b) st =
        runLoop send now total b (runLoop send now total a st) := by
  intro a
  induction a with
  | nil => intro st h; simp [runLoop]
  | cons p rest ih =>
    intro st h
    have hp : send p ≠ SendResult.missing_config := h p (by simp)
    simp only [List.cons_append, runLoop, if_neg hp]
    exact ih _ (fun q hq => h q (by simp [hq]))

/-- When the dedup filter leaves something to send, the actionable set is
non-empty too. -/
theorem toSendOf_ne_actionable {inp : RunInput} (h : toSendOf inp ≠ []) :
    actionableOf inp ≠ [] := by
  intro ha
  apply h
  unfold toSendOf
  rw [ha]
  rfl

/-- When `paymentsToSend` is non-empty, the run takes the send-loop branch. -/
theorem run_eq_main (inp : RunInput) (h : toSendOf inp ≠ []) :
    checkAndSendEmails inp =
      finishRun inp
        (runLoop inp.send inp.now (toSendOf inp).length (toSendOf inp)
          initLoopState) := by
  have ha := toSendOf_ne_actionable h
  unfold checkAndSendEmails
  rw [if_neg ha, if_neg h]

/-- Every branch of the run reports `paymentsToSend` as its selection. -/
theorem run_toSend (inp : RunInput) :
    (checkAndSendEmails inp).toSend = toSendOf inp := by
  unfold checkAndSendEmails finishRun
  repeat' split
  all_goals rfl

/-- The final resolution never alters the delay count of the loop. -/
theorem finishRun_delays (inp : RunInput) (st : LoopState) :
    (finishRun inp st).delays = st.delays := by
  unfold finishRun
  repeat' split
  all_goals rfl

/-- The final resolution always reports the loop's new entries prepended
to the previous log list. -/
theorem finishRun_logs (inp : RunInput) (st : LoopState) :
    (finishRun inp st).emailLogsOut = st.newLogs ++ inp.emailLogs := by
  unfold finishRun
  repeat' split
  all_goals rfl

/-- Every list of attempts is either free of missing_config results or has
a first missing_config item. -/
theorem exists_mc_split (send : RecurringPayment → SendResult) :
    ∀ l : List RecurringPayment,
      (∀ p ∈ l, send p ≠ SendResult.missing_config) ∨
      ∃ l1 p l2, l = l1 ++ p :: l2 ∧
        (∀ q ∈ l1, send q ≠ SendResult.missing_config) ∧
        send p = SendResult.missing_config := by
  intro l
  induction l with
  | nil =>
    left
    simp
  | cons a rest ih =>
    by_cases ha : send a = SendResult.missing_config
    · right
      exact ⟨[], a, rest, by simp, by simp, ha⟩
    · rcases ih with hclean | ⟨l1, p, l2, heq, hcl, hp⟩
      · left
        intro q hq
        rcases List.mem_cons.mp hq with h | h
        · rw [h]
          exact ha
        · exact hclean q h
      · right
        refine ⟨a :: l1, p, l2, by rw [heq]; rfl, ?_, hp⟩
        intro q hq
        rcases List.mem_cons.mp hq with h | h
        · rw [h]
          exact ha
        · exact hcl q h

/-- An aborting loop performs no delay and creates no log entry at or
after the aborting item: its delay count and log list are those of the
clean prefix. -/
theorem runLoop_abort_fields (send : RecurringPayment → SendResult)
    (now : Date) (total : Nat) (l1 l2 : List RecurringPayment)
    (p : RecurringPayment)
    (hclean : ∀ q ∈ l1, send q ≠ SendResult.missing_config)
    (hp : send p = SendResult.missing_config) (st : LoopState) :
    (runLoop send now total (l1 ++ p :: l2) st).delays =
        (runLoop send now total l1 st).delays ∧
      (runLoop send now total (l1 ++ p :: l2) st).newLogs =
        (runLoop send now total l1 st).newLogs := by
  rw [runLoop_append send now total (p :: l2) l1 st hclean]
  simp [runLoop, hp]

/-- Membership in `paymentsToSend` implies membership in the actionable
set. -/
theorem mem_toSendOf {inp : RunInput} {p : RecurringPayment}
    (h : p ∈ toSendOf inp) : p ∈ duePayments inp.payments inp.now := by
  unfold toSendOf actionableOf at h
  exact (List.mem_filter.mp h).1

/-- Every month has at least 28 days. -/
theorem daysInMonth_ge (y m : Nat) : 28 ≤ daysInMonth y m := by
  unfold daysInMonth
  repeat' split
  all_goals omega

/-! ## Concrete inputs used by counterexamples and witnesses. -/

/-- An unsettled obligation with nominal due day 31. -/
def pDue31 : RecurringPayment :=
  { id := "p31", serviceName := "svc", amount := 100, dueDay := 31,
    lastPaidDate := none }

/-- June 30, 2025 — the last day of a 30-day month. -/
def june30 : Date := { year := 2025, month := 6, day := 30 }

/-- June 29, 2025 — the day whose calendar-correct tomorrow is the last day
of the 30-day month June. -/
def june29 : Date := { year := 2025, month := 6, day := 29 }

/-- June 15, 2025. -/
def june15 : Date := { year := 2025, month := 6, day := 15 }

/-- July 3, 2025. -/
def july3 : Date := { year := 2025, month := 7, day := 3 }

/-- An unsettled obligation with nominal due day 28. -/
def pDue28 : RecurringPayment :=
  { id := "p28", serviceName := "svc28", amount := 50, dueDay := 28,
    lastPaidDate := none }

/-- An obligation settled on June 2, 2025. -/
def paidJune : RecurringPayment :=
  { id := "pj", serviceName := "svcp", amount := 5, dueDay := 15,
    lastPaidDate := some { year := 2025, month := 6, day := 2 } }

/-! ## Claim theorems: Due-Item Calculator. -/

/-- C1, counterexample.  The claim asserts that on the last day of a 30-day
month (June 30) an unsettled obligation with `dueDay = 31` is actionable as
`dueTomorrow`.  On the code, tomorrow is then July 1 and
`daysInTomorrowMonth` is 31, so neither disjunct of the `isTomorrow` check
fires; `isToday` (31 = 30) and `isOverdue` (31 < 30) fail as well, and the
obligation is not included at all. -/
theorem c1_counterexample :
    daysInMonth june30.year june30.month = 30 ∧ june30.day = 30 ∧
      pDue31.dueDay = 31 ∧ isPaidThisMonth pDue31 june30 = false ∧
      dueTomorrowB june30 pDue31 = false ∧
      duePayments [pDue31] june30 = [] := by
  decide

/-- C1, amended: the end-of-month folding fires one day earlier — when
`now` is the day before the last day of a 30-day month, so that tomorrow is
the last day of that month, an unsettled obligation with `dueDay = 31` is
included as `dueTomorrow`. -/
theorem c1_amended (today : Date) (p : RecurringPayment)
    (h30 : daysInMonth today.year today.month = 30)
    (hday : today.day = 29) (hdue : p.dueDay = 31)
    (hpaid : isPaidThisMonth p today = false) :
    dueTomorrowB today p = true ∧ isActionable today p = true ∧
      ∀ ps : List RecurringPayment, p ∈ ps → p ∈ duePayments ps today := by
  have hnd : nextDay today =
      { year := today.year, month := today.month, day := 30 } := by
    unfold nextDay
    rw [if_pos (by omega)]
    simp [hday]
  have ht : dueTomorrowB today p = true := by
    simp [dueTomorrowB, hnd, h30, hdue]
  have ha : isActionable today p = true := by
    simp [isActionable, hpaid, ht]
  exact ⟨ht, ha, fun ps hm => List.mem_filter.mpr ⟨hm, ha⟩⟩

/-- C1 witness: June 29, 2025 with the unsettled `dueDay = 31` obligation. -/
theorem c1_amended_witness :
    dueTomorrowB june29 pDue31 = true ∧ isActionable june29 pDue31 = true ∧
      pDue31 ∈ duePayments [pDue31] june29 := by
  have h := c1_amended june29 pDue31 (by decide) (by decide) (by decide)
    (by decide)
  exact ⟨h.1, h.2.1, h.2.2 [pDue31] (by decide)⟩

/-- C6: for an obligation not settled this month, the `dueTomorrow` flag
holds iff its `dueDay` equals tomorrow's day-of-month, or tomorrow (taken
calendar-correctly by `nextDay`) is the last day of its month and the
`dueDay` exceeds the number of days of tomorrow's month. -/
theorem dueTomorrow_iff (today : Date) (p : RecurringPayment)
    (_hpaid : isPaidThisMonth p today = false) :
    dueTomorrowB today p = true ↔
      p.dueDay = (nextDay today).day ∨
        ((nextDay today).day =
            daysInMonth (nextDay today).year (nextDay today).month ∧
          daysInMonth (nextDay today).year (nextDay today).month <
            p.dueDay) := by
  simp [dueTomorrowB]

/-- C6 witness: June 29, 2025 and the `dueDay = 31` obligation. -/
theorem dueTomorrow_iff_witness :
    isPaidThisMonth pDue31 june29 = false ∧
      (dueTomorrowB june29 pDue31 = true ↔
        pDue31.dueDay = (nextDay june29).day ∨
          ((nextDay june29).day =
              daysInMonth (nextDay june29).year (nextDay june29).month ∧
            daysInMonth (nextDay june29).year (nextDay june29).month <
              pDue31.dueDay)) :=
  ⟨by decide, dueTomorrow_iff june29 pDue31 (by decide)⟩

/-- C7: the overdue flag is the bare comparison `dueDay < now.day` with no
month-rollover correction, so an unsettled obligation with `dueDay = 28`
evaluated on day 3 (of the following month or any month) is due neither
today nor tomorrow nor overdue, hence not in the actionable set. -/
theorem overdue_plain (today : Date) (p : RecurringPayment) :
    overdueB today p = decide (p.dueDay < today.day) ∧
      (today.day = 3 → p.dueDay = 28 → isPaidThisMonth p today = false →
        isActionable today p = false ∧
          ∀ ps : List RecurringPayment, p ∉ duePayments ps today) := by
  refine ⟨rfl, fun h3 h28 hpaid => ?_⟩
  have hdm := daysInMonth_ge today.year today.month
  have hnd : nextDay today =
      { year := today.year, month := today.month, day := 4 } := by
    unfold nextDay
    rw [if_pos (by omega)]
    simp [h3]
  have ha : isActionable today p = false := by
    simp only [isActionable, hpaid, dueTodayB, dueTomorrowB, overdueB, hnd,
      h3, h28, Bool.not_false, Bool.true_and]
    simp only [show (28 == 3) = false by decide, beq_iff_eq]
    have h4 : ¬ (4 = daysInMonth today.year today.month) := by omega
    simp [h4, show ¬ (28 < 3) by omega]
  refine ⟨ha, fun ps hm => ?_⟩
  have := (List.mem_filter.mp hm).2
  rw [ha] at this
  exact Bool.false_ne_true this

/-- C7 witness: `dueDay = 28`, unsettled, evaluated on July 3, 2025. -/
theorem overdue_plain_witness :
    overdueB july3 pDue28 = decide (pDue28.dueDay < july3.day) ∧
      isActionable july3 pDue28 = false ∧
      pDue28 ∉ duePayments [pDue28] july3 := by
  have h := overdue_plain july3 pDue28
  exact ⟨h.1, (h.2 (by decide) (by decide) (by decide)).1,
    (h.2 (by decide) (by decide) (by decide)).2 [pDue28]⟩

/-- C8: an obligation whose `lastPaidDate` is present with the current
month and year is excluded from the actionable set regardless of `dueDay`,
both in `duePayments` and in the `paymentsToSend` selection of a run. -/
theorem settled_excluded (p : RecurringPayment) (today : Date) (d : Date)
    (hld : p.lastPaidDate = some d) (hm : d.month = today.month)
    (hy : d.year = today.year) :
    isActionable today p = false ∧
      (∀ ps : List RecurringPayment, p ∉ duePayments ps today) ∧
      (∀ inp : RunInput, inp.now = today →
        p ∉ (checkAndSendEmails inp).toSend) := by
  have hpaid : isPaidThisMonth p today = true := by
    simp [isPaidThisMonth, hld, hm, hy]
  have ha : isActionable today p = false := by
    simp [isActionable, hpaid]
  refine ⟨ha, fun ps hmem => ?_, fun inp hnow hmem => ?_⟩
  · have := (List.mem_filter.mp hmem).2
    rw [ha] at this
    exact Bool.false_ne_true this
  · rw [run_toSend] at hmem
    have := mem_toSendOf hmem
    rw [hnow] at this
    have hflag := (List.mem_filter.mp this).2
    rw [ha] at hflag
    exact Bool.false_ne_true hflag

/-- C8 witness: obligation settled June 2, 2025, evaluated June 15, 2025. -/
theorem settled_excluded_witness :
    isActionable june15 paidJune = false ∧
      paidJune ∉ duePayments [paidJune] june15 := by
  have h := settled_excluded paidJune june15
    { year := 2025, month := 6, day := 2 } (by decide) (by decide) (by decide)
  exact ⟨h.1, h.2.1 [paidJune]⟩

/-! ## Claim theorems: Dispatch Engine. -/

/-- C2: for a run that reaches the send loop and in which no attempt
reports missing_config, the final status is 'sent' iff at least one send
succeeded and none failed — and exactly then the bookkeeping keys
`lastEmailSentDate` / `lastEmailSentTo` are set to today and the current
recipient; the final status is 'error' iff at least one send failed (even
if others succeeded); whenever the status is not 'sent' the bookkeeping
keys are left unchanged. -/
theorem run_status_resolution (inp : RunInput)
    (hne : toSendOf inp ≠ [])
    (hnm : ∀ p ∈ toSendOf inp, inp.send p ≠ SendResult.missing_config) :
    ((checkAndSendEmails inp).status = EmailStatus.sent ↔
       (∃ p ∈ toSendOf inp, inp.send p = SendResult.success) ∧
         ¬ ∃ p ∈ toSendOf inp, inp.send p = SendResult.error) ∧
    ((checkAndSendEmails inp).status = EmailStatus.sent →
       (checkAndSendEmails inp).lastSentDateOut = some inp.now ∧
       (checkAndSendEmails inp).lastSentToOut = some inp.recipientEmail) ∧
    ((checkAndSendEmails inp).status = EmailStatus.error ↔
       ∃ p ∈ toSendOf inp, inp.send p = SendResult.error) ∧
    ((checkAndSendEmails inp).status = EmailStatus.error →
       (checkAndSendEmails inp).lastSentDateOut = inp.lastSentDate ∧
       (checkAndSendEmails inp).lastSentToOut = inp.lastSentToStored) ∧
    ((checkAndSendEmails inp).status ≠ EmailStatus.sent →
       (checkAndSendEmails inp).lastSentDateOut = inp.lastSentDate ∧
       (checkAndSendEmails inp).lastSentToOut = inp.lastSentToStored) := by
  rw [run_eq_main inp hne,
    runLoop_clean inp.send inp.now (toSendOf inp).length (toSendOf inp)
      initLoopState hnm]
  have hsucc : (0 < countSucc inp.send (toSendOf inp)) ↔
      ∃ p ∈ toSendOf inp, inp.send p = SendResult.success := by
    simp [countSucc, List.countP_pos_iff]
  have herr : (anyError inp.send (toSendOf inp) = true) ↔
      ∃ p ∈ toSendOf inp, inp.send p = SendResult.error := by
    simp [anyError, List.any_eq_true]
  unfold finishRun
  simp only [initLoopState, Bool.false_or, Nat.zero_add,
    if_neg Bool.false_ne_true]
  by_cases h1 : 0 < countSucc inp.send (toSendOf inp) <;>
    by_cases h2 : anyError inp.send (toSendOf inp) = true
  · rw [if_neg (by simp [h2]), if_pos h2]
    simp [herr.mp h2]
  · have hno : ∀ x ∈ toSendOf inp, ¬ inp.send x = SendResult.error :=
      fun x hx hc => h2 (herr.mpr ⟨x, hx, hc⟩)
    rw [if_pos ⟨h1, by simpa using h2⟩]
    simp [hsucc.mp h1]
    exact hno
  · rw [if_neg (by simp [h1]), if_pos h2]
    simp [herr.mp h2]
  · have hno : ∀ x ∈ toSendOf inp, ¬ inp.send x = SendResult.error :=
      fun x hx hc => h2 (herr.mpr ⟨x, hx, hc⟩)
    have hns : ∀ x ∈ toSendOf inp, ¬ inp.send x = SendResult.success :=
      fun x hx hc => h1 (hsucc.mpr ⟨x, hx, hc⟩)
    rw [if_neg (by simp [h1]), if_neg h2]
    simp
    exact ⟨fun x hx hc => absurd (hsucc.mpr ⟨x, hx, hc⟩) h1, hno⟩

/-- Unsettled obligation "a1" due on the 15th. -/
def pA : RecurringPayment :=
  { id := "a1", serviceName := "s1", amount := 1, dueDay := 15,
    lastPaidDate := none }

/-- Unsettled obligation "a2" due on the 15th. -/
def pB : RecurringPayment :=
  { id := "a2", serviceName := "s2", amount := 2, dueDay := 15,
    lastPaidDate := none }

/-- Unsettled obligation "a3" due on the 15th. -/
def pC : RecurringPayment :=
  { id := "a3", serviceName := "s3", amount := 3, dueDay := 15,
    lastPaidDate := none }

/-- A run on June 15 with two actionable obligations, no logs, unchanged
recipient, and a notifier that always succeeds. -/
def baseRun : RunInput :=
  { payments := [pA, pB], now := june15, emailLogs := [],
    recipientEmail := "user@example.com",
    lastSentToStored := some "user@example.com",
    lastSentDate := none, emailStatus := EmailStatus.idle,
    send := fun _ => SendResult.success }

/-- C2 witness: on `baseRun` (both sends succeed) the theorem yields status
'sent' and the bookkeeping date update. -/
theorem run_status_resolution_witness :
    (checkAndSendEmails baseRun).status = EmailStatus.sent ∧
      (checkAndSendEmails baseRun).lastSentDateOut = some june15 := by
  have h := run_status_resolution baseRun (by decide) (by decide)
  have hs : (checkAndSendEmails baseRun).status = EmailStatus.sent :=
    h.1.mpr ⟨by decide, by decide⟩
  exact ⟨hs, (h.2.1 hs).1⟩

/-- Any member of the dedup set comes from a qualifying log entry. -/
theorem mem_sentIdsOf {inp : RunInput} {x : String}
    (h : x ∈ sentIdsOf inp) :
    ∃ log ∈ inp.emailLogs,
      dedupLog inp.now log = true ∧ log.paymentId = some x := by
  unfold sentIdsOf sentPaymentIds at h
  by_cases hch : emailChangedOf inp = true
  · rw [if_pos hch] at h
    exact absurd h (List.not_mem_nil x)
  · rw [if_neg hch] at h
    obtain ⟨log, hm, hl⟩ := List.mem_filterMap.mp h
    by_cases hdl : dedupLog inp.now log = true
    · exact ⟨log, hm, hdl, by rwa [if_pos hdl] at hl⟩
    · rw [if_neg hdl] at hl
      exact absurd hl (by simp)

/-- C3: with the recipient unchanged, an obligation holding a success log
entry dated today is excluded from `paymentsToSend` (so the notifier is not
invoked for it); when the stored last recipient differs from the current
one, the dedup set is empty and every actionable obligation is selected
again, even if a success entry dated today exists for it.  The side
condition `p.id ≠ ""` reflects that obligation ids in the program are
non-empty strings (`pay-${Date.now()}-...`), which the JS truthiness test
on `log.paymentId` presumes. -/
theorem dedup_and_reset (inp : RunInput) (p : RecurringPayment)
    (log : EmailLog) :
    (inp.lastSentToStored = some inp.recipientEmail →
      log ∈ inp.emailLogs → log.paymentId = some p.id → p.id ≠ "" →
      log.status = LogStatus.success → log.sentAt = inp.now →
      p ∉ (checkAndSendEmails inp).toSend) ∧
    (inp.lastSentToStored ≠ some inp.recipientEmail →
      sentIdsOf inp = [] ∧
      ∀ q ∈ duePayments inp.payments inp.now,
        q ∈ (checkAndSendEmails inp).toSend) := by
  constructor
  · intro hsame hmem hpid hne hst hsent hcontra
    rw [run_toSend] at hcontra
    have hflt := (List.mem_filter.mp hcontra).2
    have hdl : dedupLog inp.now log = true := by
      simp [dedupLog, hsent, hst, hpid, hne]
    have hid : p.id ∈ sentIdsOf inp := by
      have hch : emailChangedOf inp = false := by
        simp [emailChangedOf, hsame]
      unfold sentIdsOf sentPaymentIds
      rw [hch]
      simp only [Bool.false_eq_true, if_false]
      exact List.mem_filterMap.mpr ⟨log, hmem, by simp [hdl, hpid]⟩
    simp [hid] at hflt
  · intro hdiff
    have hch : emailChangedOf inp = true := by
      simp [emailChangedOf, hdiff]
    have hempty : sentIdsOf inp = [] := by
      unfold sentIdsOf sentPaymentIds
      rw [if_pos hch]
    refine ⟨hempty, fun q hq => ?_⟩
    rw [run_toSend]
    refine List.mem_filter.mpr ⟨hq, ?_⟩
    simp [hempty]

/-- A success log entry for obligation "a1" dated June 15. -/
def logForA : EmailLog :=
  { id := "", paymentId := some "a1", serviceName := "s1", amount := 1,
    sentAt := june15, status := LogStatus.success }

/-- Run `baseRun` with obligation "a1" already logged as sent today. -/
def dedupRun : RunInput := { baseRun with emailLogs := [logForA] }

/-- Run `dedupRun` after the recipient changed. -/
def resetRun : RunInput :=
  { dedupRun with lastSentToStored := some "old@example.com" }

/-- C3 witness: "a1" is skipped when the recipient is unchanged and is
selected again after a recipient change, despite today's success entry. -/
theorem dedup_and_reset_witness :
    pA ∉ (checkAndSendEmails dedupRun).toSend ∧
      pA ∈ (checkAndSendEmails resetRun).toSend := by
  constructor
  · exact (dedup_and_reset dedupRun pA logForA).1 (by decide) (by decide)
      (by decide) (by decide) (by decide) (by decide)
  · exact ((dedup_and_reset resetRun pA logForA).2 (by decide)).2 pA
      (by decide)

/-- C4: when the notifier reports missing_config for some item of
`paymentsToSend` (first such item `p`, preceded by `l1`), the loop aborts
at `p`: log entries exist exactly for the items attempted before it, the
ids handed to the notifier are `l1`'s and then `p`'s, the final status is
'missing_config', and the bookkeeping keys are unchanged. -/
theorem missing_config_abort (inp : RunInput)
    (l1 l2 : List RecurringPayment) (p : RecurringPayment)
    (hsplit : toSendOf inp = l1 ++ p :: l2)
    (hclean : ∀ q ∈ l1, inp.send q ≠ SendResult.missing_config)
    (hp : inp.send p = SendResult.missing_config) :
    (checkAndSendEmails inp).status = EmailStatus.missing_config ∧
      (checkAndSendEmails inp).emailLogsOut =
        (logsOfRun inp.send inp.now l1).reverse ++ inp.emailLogs ∧
      (checkAndSendEmails inp).attempted =
        l1.map (fun q => q.id) ++ [p.id] ∧
      (checkAndSendEmails inp).lastSentDateOut = inp.lastSentDate ∧
      (checkAndSendEmails inp).lastSentToOut = inp.lastSentToStored := by
  have hne : toSendOf inp ≠ [] := by
    rw [hsplit]
    simp
  rw [run_eq_main inp hne]
  rw [hsplit,
    runLoop_append inp.send inp.now (l1 ++ p :: l2).length (p :: l2) l1
      initLoopState hclean,
    runLoop_clean inp.send inp.now (l1 ++ p :: l2).length l1 initLoopState
      hclean]
  simp only [runLoop, hp, if_pos]
  unfold finishRun
  simp [initLoopState]

/-- A run with three pending obligations whose notifier reports
missing_config on every attempt (so on the first one already). -/
def mcRun : RunInput :=
  { payments := [pA, pB, pC], now := june15, emailLogs := [],
    recipientEmail := "user@example.com",
    lastSentToStored := some "user@example.com",
    lastSentDate := none, emailStatus := EmailStatus.idle,
    send := fun _ => SendResult.missing_config }

/-- C4 witness: missing_config on the first of three pending items leaves
no log entries, attempts only the first id, and ends 'missing_config'. -/
theorem missing_config_abort_witness :
    (checkAndSendEmails mcRun).status = EmailStatus.missing_config ∧
      (checkAndSendEmails mcRun).emailLogsOut = [] ∧
      (checkAndSendEmails mcRun).attempted = ["a1"] := by
  have h := missing_config_abort mcRun [] [pB, pC] pA (by decide)
    (by decide) (by decide)
  refine ⟨h.1, ?_, ?_⟩
  · simpa [logsOfRun, mcRun] using h.2.1
  · simpa [pA] using h.2.2.1

/-- C5, counterexample.  The claim says the 2.5-second delay runs only
between consecutive sends and never after the final item.  The code's
condition is `paymentsToSend.length > 1`, a constant of the run: on a 2-item
run with both sends logged, the delay is awaited twice — once after the
final item — whereas the claim allows at most `attempts - 1 = 1` delays. -/
theorem c5_counterexample :
    (checkAndSendEmails baseRun).attempted.length = 2 ∧
      ¬ ((checkAndSendEmails baseRun).delays ≤
          (checkAndSendEmails baseRun).attempted.length - 1) := by
  decide

/-- C5, amended: in every run, the delay is performed after every send
that produced a log entry iff `paymentsToSend` holds more than one item in
total — the delay count equals the number of log entries the run created
when `paymentsToSend` has more than one item (including after the final
item, and a run aborting on missing_config delays after each of its logged
sends), and is zero otherwise (single-item runs, runs never reaching the
loop). -/
theorem throttle_delay_count (inp : RunInput) :
    (checkAndSendEmails inp).delays =
      if 1 < (toSendOf inp).length
      then (checkAndSendEmails inp).emailLogsOut.length -
        inp.emailLogs.length
      else 0 := by
  by_cases hne : toSendOf inp = []
  · unfold checkAndSendEmails
    by_cases ha : actionableOf inp = []
    · rw [if_pos ha]
      simp [hne]
    · rw [if_neg ha, if_pos hne]
      simp [hne]
  · rw [run_eq_main inp hne, finishRun_delays, finishRun_logs]
    rcases exists_mc_split inp.send (toSendOf inp) with
      hclean | ⟨l1, p, l2, heq, hcl, hp⟩
    · rw [runLoop_clean inp.send inp.now (toSendOf inp).length
        (toSendOf inp) initLoopState hclean]
      simp only [initLoopState, logsOfRun, List.length_append,
        List.length_reverse, List.length_map, List.append_nil,
        List.length_nil, Nat.zero_add, Nat.add_sub_cancel]
    · rw [heq]
      obtain ⟨hd, hl⟩ := runLoop_abort_fields inp.send inp.now
        (l1 ++ p :: l2).length l1 l2 p hcl hp initLoopState
      rw [hd, hl,
        runLoop_clean inp.send inp.now (l1 ++ p :: l2).length l1
          initLoopState hcl]
      simp only [initLoopState, logsOfRun, List.length_append,
        List.length_reverse, List.length_map, List.append_nil,
        List.length_nil, Nat.zero_add, Nat.add_sub_cancel]

/-- A two-item run whose second send reports missing_config: the first
item is logged and followed by one delay before the abort. -/
def abortRun : RunInput :=
  { payments := [pA, pB], now := june15, emailLogs := [],
    recipientEmail := "user@example.com",
    lastSentToStored := some "user@example.com",
    lastSentDate := none, emailStatus := EmailStatus.idle,
    send := fun p =>
      if p.id = "a2" then SendResult.missing_config
      else SendResult.success }

/-- C5 witness: the two-item all-success run performs two delays (one
after its final item), and the two-item run aborting on its second item
performs one delay, after its single logged send. -/
theorem throttle_delay_count_witness :
    (checkAndSendEmails baseRun).delays = 2 ∧
      (checkAndSendEmails abortRun).delays = 1 := by
  constructor
  · rw [throttle_delay_count baseRun]
    decide
  · rw [throttle_delay_count abortRun]
    decide

/-- C10: a log entry with an absent `paymentId` never contributes to the
dedup set (the JS guard `log.paymentId` is falsy for `undefined`): an
actionable obligation with no success entry dated today bearing its own id
is selected for sending, whatever unassociated entries exist. -/
theorem unassociated_logs_never_dedup (inp : RunInput)
    (p : RecurringPayment)
    (hact : p ∈ duePayments inp.payments inp.now)
    (hnolog : ∀ log ∈ inp.emailLogs, log.status = LogStatus.success →
      log.sentAt = inp.now → log.paymentId ≠ some p.id) :
    p ∈ (checkAndSendEmails inp).toSend := by
  rw [run_toSend]
  refine List.mem_filter.mpr ⟨hact, ?_⟩
  suffices h : p.id ∉ sentIdsOf inp by simp [h]
  intro hmem
  obtain ⟨log, hlmem, hdl, hpid⟩ := mem_sentIdsOf hmem
  simp only [dedupLog, Bool.and_eq_true, decide_eq_true_eq] at hdl
  exact hnolog log hlmem hdl.1.2 hdl.1.1 hpid

/-- A success log entry dated June 15 with no associated obligation id. -/
def logNone : EmailLog :=
  { id := "", paymentId := none, serviceName := "sx", amount := 9,
    sentAt := june15, status := LogStatus.success }

/-- A run whose only log entry is the unassociated success entry of
today. -/
def orphanRun : RunInput :=
  { payments := [pA], now := june15, emailLogs := [logNone],
    recipientEmail := "user@example.com",
    lastSentToStored := some "user@example.com",
    lastSentDate := none, emailStatus := EmailStatus.idle,
    send := fun _ => SendResult.success }

/-- C10 witness: despite today's unassociated success entry, obligation
"a1" is still selected for sending. -/
theorem unassociated_logs_never_dedup_witness :
    pA ∈ (checkAndSendEmails orphanRun).toSend :=
  unassociated_logs_never_dedup orphanRun pA (by decide) (by decide)

/-! ## Claim theorems: Dispatch Scheduler. -/

/-- C9: at each evaluation of the scheduling effect — if the recorded
last-dispatch date equals today, a single-shot timer is armed for tomorrow
06:00 (30 hours minus the current time of day); otherwise the check runs
immediately when `now` is at or past today's 06:00, and below 06:00 a timer
is armed for the remaining time until 06:00.  `armTimer d` invokes the
check when the timer fires after `d` milliseconds. -/
theorem scheduler_cases (lastSentDate : Option Date) (today : Date)
    (msOfDay : Nat) :
    (lastSentDate = some today →
      scheduleNext lastSentDate today msOfDay =
        SchedAction.armTimer (24 * msPerHour + targetMs - msOfDay)) ∧
    (lastSentDate ≠ some today → targetMs ≤ msOfDay →
      scheduleNext lastSentDate today msOfDay = SchedAction.runNow) ∧
    (lastSentDate ≠ some today → msOfDay < targetMs →
      scheduleNext lastSentDate today msOfDay =
        SchedAction.armTimer (targetMs - msOfDay)) := by
  refine ⟨fun h => ?_, fun h hge => ?_, fun h hlt => ?_⟩
  · simp [scheduleNext, h]
  · simp [scheduleNext, h, hge]
  · simp [scheduleNext, h, Nat.not_le.mpr hlt]

/-- C9 witness: the three branches at 07:00 with a send recorded today, at
07:00 with none, and at 02:00 with none. -/
theorem scheduler_cases_witness :
    scheduleNext (some june15) june15 (7 * msPerHour) =
      SchedAction.armTimer (24 * msPerHour + targetMs - 7 * msPerHour) ∧
    scheduleNext none june15 (7 * msPerHour) = SchedAction.runNow ∧
    scheduleNext none june15 (2 * msPerHour) =
      SchedAction.armTimer (targetMs - 2 * msPerHour) :=
  ⟨(scheduler_cases (some june15) june15 (7 * msPerHour)).1 rfl,
   (scheduler_cases none june15 (7 * msPerHour)).2.1 (by decide) (by decide),
   (scheduler_cases none june15 (2 * msPerHour)).2.2 (by decide) (by decide)⟩

end VoiceTasks
